import Mathlib

/-!
Shallow embedding of `deepdrive_ci/ContainerSpawner.py`.

The `ContainerSpawner` class selects a Docker container host from a pool of EC2
instances and starts a container on it.  The embedding below mirrors the Python
source line by line:

* network collaborators (the EC2 API, the per-host Docker daemons, the container
  launch primitive and the pseudo-random generator) are modelled as an explicit
  `Oracle` of observations supplied to one attempt;
* the observable side effects of one attempt (sleeping, starting an instance,
  launching or stopping a container) are recorded in a trace of `Action`s;
* Python exceptions are modelled with `Except`: `PyErr` stands for any exception
  that is not `HostSelectionRestart`, while the `HostSelectionRestart` control
  signal is the `AttemptResult.restart` constructor;
* the `tenacity` retry decorator (`retry_if_exception_type(HostSelectionRestart)`,
  `stop_after_attempt(5)`) is modelled by `tenacityGo`;
* timestamps and durations are integers (seconds); the backoff duration drawn by
  `random.uniform(60, 180)` is a rational computed from a draw `r` that models
  `random.random()` (a value in `[0, 1)`).
-/

namespace ContainerSpawner

/-- A Docker container as seen through the Docker API: an identifier, its
creation timestamp (`attrs['Created']`, modelled as a natural number) and the
labels attached to it. -/
structure Container where
  cid : Nat
  created : Nat
  labels : List String
deriving DecidableEq

/-- An EC2 instance as consumed by `ContainerSpawner`: `instance.id` (modelled
as a number), `instance.state['Name']`, `instance.tags` as Key/Value pairs, and
the seconds elapsed since `instance.launch_time` at probe time (the value of
`(datetime.datetime.now(utc) - instance.launch_time).total_seconds()`). -/
structure Inst where
  iid : Nat
  stateName : String
  tags : List (String × String)
  uptime : Int
deriving DecidableEq

/-- The constructor arguments of `ContainerSpawner.__init__`: the ownership
label, the default `max_containers` and the Docker daemon `startup_time`. -/
structure Config where
  label : String
  max_containers : Int
  startup_time : Int
deriving DecidableEq

/-- A Python exception other than `HostSelectionRestart`: a `ValueError` from
`int(...)`, an `IndexError` from `random.choice` on an empty sequence, or an
error raised by a remote API call. -/
inductive PyErr where
  | valueError (s : String)
  | indexError
  | apiError
deriving DecidableEq

/-- An observable side effect of one `spawn_container` attempt.  `sleepFor`
records the `time.sleep` calls tied to daemon startup (lines 99 and 193 of the
source), `backdown` records the `time.sleep(backdown)` call of the no-capacity
branch (line 113), `startInstance` records `instance.start()`,
`launchContainer` records the `DockerUtils.start_for_exec` call on the selected
host, and `stopContainer` records `container.stop()`. -/
inductive Action where
  | sleepFor (d : Int)
  | backdown (d : ℚ)
  | startInstance (iid : Nat)
  | launchContainer (iid : Nat)
  | stopContainer (cid : Nat)
deriving DecidableEq

/-- The outcome of probing one host's Docker daemon
(`docker.DockerClient(...)` + `ping()` + `containers.list`): the connection may
fail (`unreachable`, any exception from the client constructor or `ping`), the
listing may fail after the client was stored (`listFailed`), or the daemon
answers with the list of all containers currently running on the host. -/
inductive ProbeOutcome where
  | unreachable
  | listFailed
  | ok (cs : List Container)

/-- The details dictionary built by `ContainerSpawner._get_instance_details`:
the instance, the detected capacity, whether the instance state is `running`,
whether a Docker client was stored (`details['docker'] is not None`), and the
counted occupancy (`details['containers']`). -/
structure Details where
  inst : Inst
  capacity : Int
  running : Bool
  docker : Bool
  containers : Nat
deriving DecidableEq

/-- The result of one `spawn_container` attempt: a container was placed on a
host, the attempt raised `HostSelectionRestart`, or the attempt raised some
other Python exception. -/
inductive AttemptResult where
  | placed (c : Container) (hostId : Nat)
  | restart
  | failed (e : PyErr)
deriving DecidableEq

/-- The observations one attempt makes of its collaborators: the Docker probe
outcomes during enumeration (`probe1`) and after starting a stopped instance
(`probe2`), the index drawn by `random.choice`, the draw `r ∈ [0,1)` behind
`random.uniform(60, 180)`, the outcome of `DockerUtils.start_for_exec` (`none`
models any launch exception; `some (cid, created)` is the new container), and
the daemon's answer to the reconciliation `containers.list` query. -/
structure Oracle where
  probe1 : Nat → ProbeOutcome
  probe2 : Nat → ProbeOutcome
  choiceIdx : Nat
  backoffR : ℚ
  launchOutcome : Option (Nat × Nat)
  reconList : List Container

/-- The result of the retry-wrapped `spawn_container` call: a placed container,
a propagated non-transient exception, or `tenacity.RetryError` after the
attempt budget is exhausted. -/
inductive PlaceResult where
  | ok (c : Container) (hostId : Nat)
  | raised (e : PyErr)
  | fatalRetryError
deriving DecidableEq

/-- `ContainerSpawner._running_containers`: the containers reported by the
daemon, filtered to those carrying the ownership label
(`containers.list(filters={'label': self._label})`). -/
def runningContainers (label : String) (cs : List Container) : List Container :=
  cs.filter (fun c => c.labels.contains label)

/-- The value of a decimal digit character, `none` for any other character. -/
def digitVal (c : Char) : Option Nat :=
  if c.isDigit then some (c.toNat - 48) else none

/-- Accumulate the decimal value of a digit sequence; `none` on the first
non-digit character. -/
def parseDigitsAux : List Char → Nat → Option Nat
  | [], acc => some acc
  | c :: cs, acc =>
    match digitVal c with
    | none => none
    | some d => parseDigitsAux cs (acc * 10 + d)

/-- Parse a non-empty sequence of decimal digits. -/
def parseDigits : List Char → Option Nat
  | [] => none
  | cs => parseDigitsAux cs 0

/-- Python `int(...)` applied to a string, modelled for plain decimal values:
an optional sign followed by one or more digits; anything else is a
`ValueError` (`none`). -/
def parsePyInt (s : String) : Option Int :=
  match s.data with
  | [] => none
  | '-' :: cs => (parseDigits cs).map (fun n => -(n : Int))
  | '+' :: cs => (parseDigits cs).map (fun n => (n : Int))
  | cs => (parseDigits cs).map (fun n => (n : Int))

/-- Capacity detection in `ContainerSpawner._get_instance_details` (lines
171-175): filter the instance tags by the capacity tag name and parse the first
match with `int(...)`, falling back to the default `max_containers`.
`parsePyInt` models Python `int` on a string; a non-numeric value is a
`ValueError`. -/
def detectCapacity (cfg : Config) (capacityKey : Option String) (inst : Inst) :
    Except PyErr Int :=
  let capacityTags := inst.tags.filter (fun t => capacityKey == some t.1)
  match capacityKey, capacityTags.head? with
  | some _, some t =>
    match parsePyInt t.2 with
    | some v => Except.ok v
    | none => Except.error (PyErr.valueError t.2)
  | _, _ => Except.ok cfg.max_containers

/-- Lines 191-193 of the source: if the instance has only just booted, sleep
out the remaining daemon startup time. -/
def bootTrace (cfg : Config) (inst : Inst) : List Action :=
  if inst.uptime < cfg.startup_time then
    [Action.sleepFor (cfg.startup_time - inst.uptime)]
  else []

/-- `ContainerSpawner._get_instance_details`: detect the capacity, build the
details dictionary, and, when the instance state is `running`, sleep out the
remaining daemon startup time and probe the Docker daemon, counting the
label-filtered containers on success; any probe failure is swallowed and leaves
`docker = None` (and, if the listing itself failed after the client was stored,
`docker` set but `containers = 0`). -/
def getInstanceDetails (cfg : Config) (capacityKey : Option String)
    (probe : Nat → ProbeOutcome) (inst : Inst) :
    List Action × Except PyErr Details :=
  match detectCapacity cfg capacityKey inst with
  | Except.error e => ([], Except.error e)
  | Except.ok detectedCapacity =>
    if inst.stateName = "running" then
      match probe inst.iid with
      | ProbeOutcome.unreachable =>
        (bootTrace cfg inst,
         Except.ok { inst := inst, capacity := detectedCapacity,
                     running := true, docker := false, containers := 0 })
      | ProbeOutcome.listFailed =>
        (bootTrace cfg inst,
         Except.ok { inst := inst, capacity := detectedCapacity,
                     running := true, docker := true, containers := 0 })
      | ProbeOutcome.ok cs =>
        (bootTrace cfg inst,
         Except.ok { inst := inst, capacity := detectedCapacity,
                     running := true, docker := true,
                     containers := (runningContainers cfg.label cs).length })
    else
      ([], Except.ok { inst := inst, capacity := detectedCapacity,
                       running := false, docker := false, containers := 0 })

/-- The enumeration comprehension of line 73:
`[self._get_instance_details(instance, capacity, tls) for instance in pool]`.
Details are collected left to right; the first exception aborts the
comprehension and propagates, after the side effects of the prefix. -/
def enumerateDetails (cfg : Config) (capacityKey : Option String)
    (probe : Nat → ProbeOutcome) : List Inst → List Action × Except PyErr (List Details)
  | [] => ([], Except.ok [])
  | inst :: rest =>
    match (getInstanceDetails cfg capacityKey probe inst).2 with
    | Except.error e => ((getInstanceDetails cfg capacityKey probe inst).1, Except.error e)
    | Except.ok d =>
      match (enumerateDetails cfg capacityKey probe rest).2 with
      | Except.error e =>
        ((getInstanceDetails cfg capacityKey probe inst).1 ++
           (enumerateDetails cfg capacityKey probe rest).1, Except.error e)
      | Except.ok ds =>
        ((getInstanceDetails cfg capacityKey probe inst).1 ++
           (enumerateDetails cfg capacityKey probe rest).1, Except.ok (d :: ds))

/-- `ContainerSpawner._has_capacity`: the instance is running, a Docker client
was stored, and the counted occupancy is below the detected capacity. -/
def hasCapacity (d : Details) : Bool :=
  d.running && d.docker && decide ((d.containers : Int) < d.capacity)

/-- Python `min` over a list of numbers (raises on an empty list; the `0`
default is never reached where `pyMin` is used, because the caller checks the
list is non-empty first). -/
def pyMin : List Nat → Nat
  | [] => 0
  | x :: xs => xs.foldl min x

/-- Lines 84-85 of the source: the instances with the fewest running labelled
containers among the running-with-capacity instances. -/
def candidatesOf (running : List Details) : List Details :=
  running.filter (fun d => d.containers == pyMin (running.map (fun d => d.containers)))

/-- `random.choice(seq)`: pick the element at the drawn index (the draw is
modelled as an arbitrary natural number reduced modulo the length; `none`
models the `IndexError` raised on an empty sequence). -/
def pick (l : List α) (i : Nat) : Option α :=
  l[i % l.length]?

/-- `random.uniform(a, b) = a + (b - a) * random.random()` where the draw `r`
models `random.random()`, a value in `[0, 1)`. -/
def uniform (a b r : ℚ) : ℚ :=
  a + (b - a) * r

/-- Python list slicing `l[k:]` with a possibly negative start index:
a negative `k` counts from the end, clamped at the front of the list. -/
def pysliceFrom (l : List α) (k : Int) : List α :=
  if 0 ≤ k then l.drop k.toNat else l.drop (l.length - (-k).toNat)

/-- Insert into an ascending list, keeping it ascending. -/
def insertAsc (x : Nat) : List Nat → List Nat
  | [] => [x]
  | y :: ys => if x ≤ y then x :: y :: ys else y :: insertAsc x ys

/-- Python `sorted` on a list of numbers (ascending). -/
def sortAsc : List Nat → List Nat
  | [] => []
  | x :: xs => insertAsc x (sortAsc xs)

/-- Lines 130-131 of the source: the surplus slice computed during
reconciliation.  The creation times of the (label-filtered) containers are
sorted ascending and sliced from index `(len(containers) - self._max_containers) - 1`,
where `self._max_containers` is the spawner's DEFAULT capacity. -/
def surplusOf (cfg : Config) (containers : List Container) : List Nat :=
  let created := sortAsc (containers.map (fun c => c.created))
  pysliceFrom created ((containers.length : Int) - cfg.max_containers - 1)

/-- The surplus set as the specification words it: the most recently created
`occupancy - capacity` owned workloads, where `capacity` is the host's
EFFECTIVE (possibly overridden) capacity.  Written as the slice
`created[-(occupancy - capacity):]` of the creation-time-ascending sort. -/
def claimedSurplus (capacity : Int) (containers : List Container) : List Nat :=
  let created := sortAsc (containers.map (fun c => c.created))
  pysliceFrom created (-((containers.length : Int) - capacity))

/-- Lines 117-137 of the source: attempt to start a container on the selected
host (any launch exception becomes `HostSelectionRestart`), then reconcile:
re-query the labelled containers, and if their number exceeds the host's
detected capacity and our container's creation time lies in the surplus slice,
stop our container and raise `HostSelectionRestart`. -/
def launchAndReconcile (cfg : Config) (o : Oracle) (selected : Details) :
    List Action × AttemptResult :=
  match o.launchOutcome with
  | none => ([Action.launchContainer selected.inst.iid], AttemptResult.restart)
  | some (cid, created) =>
    if ((runningContainers cfg.label o.reconList).length : Int) > selected.capacity then
      if created ∈ surplusOf cfg (runningContainers cfg.label o.reconList) then
        ([Action.launchContainer selected.inst.iid, Action.stopContainer cid],
         AttemptResult.restart)
      else
        ([Action.launchContainer selected.inst.iid],
         AttemptResult.placed { cid := cid, created := created, labels := [cfg.label] }
           selected.inst.iid)
    else
      ([Action.launchContainer selected.inst.iid],
       AttemptResult.placed { cid := cid, created := created, labels := [cfg.label] }
         selected.inst.iid)

/-- Lines 88-106 of the source, after a stopped instance was selected: issue
the start command, wait until running, sleep the daemon startup time, re-fetch
the instance details with a fresh probe, and raise `HostSelectionRestart` when
the Docker daemon could not be reached; otherwise go on to launch and
reconcile. -/
def startStoppedBranch (cfg : Config) (capacityKey : Option String) (o : Oracle)
    (selected : Details) : List Action × AttemptResult :=
  match (getInstanceDetails cfg capacityKey o.probe2 selected.inst).2 with
  | Except.error e =>
    (Action.startInstance selected.inst.iid :: Action.sleepFor cfg.startup_time ::
       (getInstanceDetails cfg capacityKey o.probe2 selected.inst).1,
     AttemptResult.failed e)
  | Except.ok sel2 =>
    if sel2.docker == false then
      (Action.startInstance selected.inst.iid :: Action.sleepFor cfg.startup_time ::
         (getInstanceDetails cfg capacityKey o.probe2 selected.inst).1,
       AttemptResult.restart)
    else
      (Action.startInstance selected.inst.iid :: Action.sleepFor cfg.startup_time ::
         ((getInstanceDetails cfg capacityKey o.probe2 selected.inst).1 ++
            (launchAndReconcile cfg o sel2).1),
       (launchAndReconcile cfg o sel2).2)

/-- Lines 76-137 of the source, after the pool details were enumerated:
partition into running-with-capacity and stopped instances, then either select
a running instance with the fewest containers (random tie-break) and launch on
it, or start a randomly chosen stopped instance, or sleep the randomized
backdown timer and raise `HostSelectionRestart`. -/
def selectionPhase (cfg : Config) (capacityKey : Option String) (o : Oracle)
    (instances : List Details) : List Action × AttemptResult :=
  if (instances.filter hasCapacity).length > 0 then
    match pick (candidatesOf (instances.filter hasCapacity)) o.choiceIdx with
    | none => ([], AttemptResult.failed PyErr.indexError)
    | some selected => launchAndReconcile cfg o selected
  else if (instances.filter (fun d => d.running == false)).length > 0 then
    match pick (instances.filter (fun d => d.running == false)) o.choiceIdx with
    | none => ([], AttemptResult.failed PyErr.indexError)
    | some selected => startStoppedBranch cfg capacityKey o selected
  else
    ([Action.backdown (uniform 60 180 o.backoffR)], AttemptResult.restart)

/-- One attempt of `ContainerSpawner.spawn_container`: enumerate the pool (an
exception there propagates), build every instance's details, then run the
selection phase; the attempt's trace is the enumeration trace followed by the
selection-phase trace. -/
def spawnAttempt (cfg : Config) (capacityKey : Option String) (o : Oracle)
    (poolResult : Except PyErr (List Inst)) : List Action × AttemptResult :=
  match poolResult with
  | Except.error e => ([], AttemptResult.failed e)
  | Except.ok pool =>
    match (enumerateDetails cfg capacityKey o.probe1 pool).2 with
    | Except.error e =>
      ((enumerateDetails cfg capacityKey o.probe1 pool).1, AttemptResult.failed e)
    | Except.ok instances =>
      ((enumerateDetails cfg capacityKey o.probe1 pool).1 ++
         (selectionPhase cfg capacityKey o instances).1,
       (selectionPhase cfg capacityKey o instances).2)

/-- The `tenacity` retry loop with `retry_if_exception_type(HostSelectionRestart)`
and `stop_after_attempt(n)`: run attempts starting at number `k` with `fuel`
attempts left; a `restart` consumes one attempt and retries, any other outcome
ends the call, and running out of attempts raises `tenacity.RetryError`. -/
def tenacityGo (attempt : Nat → AttemptResult) : Nat → Nat → PlaceResult
  | 0, _ => PlaceResult.fatalRetryError
  | fuel + 1, k =>
    match attempt k with
    | AttemptResult.placed c h => PlaceResult.ok c h
    | AttemptResult.failed e => PlaceResult.raised e
    | AttemptResult.restart => tenacityGo attempt fuel (k + 1)

/-- The number of attempts the `tenacity` loop performs. -/
def tenacityCount (attempt : Nat → AttemptResult) : Nat → Nat → Nat
  | 0, _ => 0
  | fuel + 1, k =>
    match attempt k with
    | AttemptResult.restart => 1 + tenacityCount attempt fuel (k + 1)
    | _ => 1

/-- The retry wrapper of `spawn_container`:
`@retry(retry=retry_if_exception_type(HostSelectionRestart), stop=stop_after_attempt(5))`. -/
def runWithRetry (attempt : Nat → AttemptResult) : PlaceResult :=
  tenacityGo attempt 5 1

/-- The number of attempts `spawn_container`'s wrapper performs for a given
attempt behaviour. -/
def attemptsMade (attempt : Nat → AttemptResult) : Nat :=
  tenacityCount attempt 5 1

/-- The behaviour of the `k`-th attempt, given the per-attempt observations. -/
def attemptResultAt (cfg : Config) (capacityKey : Option String)
    (env : Nat → Oracle × Except PyErr (List Inst)) (k : Nat) : AttemptResult :=
  (spawnAttempt cfg capacityKey (env k).1 (env k).2).2

/-- The full `spawn_container` call: the attempt body wrapped in the tenacity
retry loop. -/
def spawn_container (cfg : Config) (capacityKey : Option String)
    (env : Nat → Oracle × Except PyErr (List Inst)) : PlaceResult :=
  runWithRetry (attemptResultAt cfg capacityKey env)

/-- Does an action start an instance? -/
def isStart : Action → Bool
  | Action.startInstance _ => true
  | _ => false

/-- Is an action the backoff sleep of the no-capacity branch? -/
def isBackdown : Action → Bool
  | Action.backdown _ => true
  | _ => false

/-- Does an action launch a container? -/
def isLaunch : Action → Bool
  | Action.launchContainer _ => true
  | _ => false

/-- Does an action stop a container? -/
def isStop : Action → Bool
  | Action.stopContainer _ => true
  | _ => false

/-! ### Concrete fixtures used in the evaluation theorems -/

/-- A spawner with ownership label `"ci"`, default `max_containers = 1` and
`startup_time = 30`, as built by `ContainerSpawner('ci')`. -/
def defaultCfg : Config := { label := "ci", max_containers := 1, startup_time := 30 }

/-- A long-running EC2 instance with no tags. -/
def runningInst : Inst := { iid := 1, stateName := "running", tags := [], uptime := 100 }

/-- Four labelled containers created at times 1, 2, 3 and 4 on one host. -/
def fourContainers : List Container :=
  [⟨11, 1, ["ci"]⟩, ⟨12, 2, ["ci"]⟩, ⟨13, 3, ["ci"]⟩, ⟨14, 4, ["ci"]⟩]

/-- An instance whose `cap` tag overrides the capacity to `3`. -/
def overrideInst : Inst :=
  { iid := 3, stateName := "running", tags := [("cap", "3")], uptime := 100 }

/-- An instance whose `cap` tag holds a non-numeric value. -/
def badTagInst : Inst :=
  { iid := 7, stateName := "running", tags := [("cap", "banana")], uptime := 100 }

/-- A second instance with a non-numeric `cap` tag. -/
def badTagInst2 : Inst :=
  { iid := 8, stateName := "running", tags := [("cap", "x")], uptime := 100 }

/-- Observations of the racing-launch scenario: this engine launched container
10 at time 1; the reconciliation query sees it together with container 20
launched at time 2 by the racing participant. -/
def raceOracle : Oracle :=
  { probe1 := fun _ => ProbeOutcome.ok []
    probe2 := fun _ => ProbeOutcome.ok []
    choiceIdx := 0
    backoffR := 0
    launchOutcome := some (10, 1)
    reconList := [⟨10, 1, ["ci"]⟩, ⟨20, 2, ["ci"]⟩] }

/-- Observations of a second racing scenario: this engine launched container 77
at time 3, racing with container 88 launched at time 4. -/
def frameOracle : Oracle :=
  { probe1 := fun _ => ProbeOutcome.ok []
    probe2 := fun _ => ProbeOutcome.ok []
    choiceIdx := 0
    backoffR := 0
    launchOutcome := some (77, 3)
    reconList := [⟨77, 3, ["ci"]⟩, ⟨88, 4, ["ci"]⟩] }

/-- Observations of an uncontended launch: container 10 created at time 5 on a
host that the reconciliation query still sees as empty of other owned work. -/
def quietOracle : Oracle :=
  { probe1 := fun _ => ProbeOutcome.ok []
    probe2 := fun _ => ProbeOutcome.ok []
    choiceIdx := 0
    backoffR := 0
    launchOutcome := some (10, 5)
    reconList := [⟨10, 5, ["ci"]⟩] }

/-- Observations with a backoff draw of one half. -/
def backoffOracle : Oracle :=
  { probe1 := fun _ => ProbeOutcome.ok []
    probe2 := fun _ => ProbeOutcome.ok []
    choiceIdx := 0
    backoffR := 1/2
    launchOutcome := none
    reconList := [] }

/-! ### Helper lemmas -/


theorem bootTrace_sleep (cfg : Config) (inst : Inst) :
    ∀ a ∈ bootTrace cfg inst, ∃ d, a = Action.sleepFor d := by
  intro a ha
  unfold bootTrace at ha
  split at ha
  · simp at ha; exact ⟨_, ha⟩
  · simp at ha

theorem getInstanceDetails_trace (cfg : Config) (key : Option String)
    (probe : Nat → ProbeOutcome) (inst : Inst) :
    ∀ a ∈ (getInstanceDetails cfg key probe inst).1, ∃ d, a = Action.sleepFor d := by
  intro a ha
  unfold getInstanceDetails at ha
  split at ha
  · simp at ha
  · split at ha
    · split at ha <;> exact bootTrace_sleep cfg inst a ha
    · simp at ha

theorem enumerateDetails_trace (cfg : Config) (key : Option String)
    (probe : Nat → ProbeOutcome) (pool : List Inst) :
    ∀ a ∈ (enumerateDetails cfg key probe pool).1, ∃ d, a = Action.sleepFor d := by
  induction pool with
  | nil => intro a ha; simp [enumerateDetails] at ha
  | cons inst rest ih =>
    intro a ha
    unfold enumerateDetails at ha
    split at ha
    · exact getInstanceDetails_trace cfg key probe inst a ha
    · split at ha <;>
      · simp only [List.mem_append] at ha
        rcases ha with ha | ha
        · exact getInstanceDetails_trace cfg key probe inst a ha
        · exact ih a ha


theorem getInstanceDetails_ok (cfg : Config) (key : Option String)
    (probe : Nat → ProbeOutcome) (inst : Inst) (c : Int)
    (h : detectCapacity cfg key inst = Except.ok c) :
    ∃ tr d, getInstanceDetails cfg key probe inst = (tr, Except.ok d) := by
  unfold getInstanceDetails
  simp only [h]
  split
  · split <;> exact ⟨_, _, rfl⟩
  · exact ⟨_, _, rfl⟩

theorem launchAndReconcile_kinds (cfg : Config) (o : Oracle) (sel : Details) :
    ∀ a ∈ (launchAndReconcile cfg o sel).1, isLaunch a = true ∨ isStop a = true := by
  intro a ha
  unfold launchAndReconcile at ha
  split at ha
  · simp at ha; subst ha; left; rfl
  · split at ha
    · split at ha
      · simp at ha
        rcases ha with ha | ha <;> subst ha
        · left; rfl
        · right; rfl
      · simp at ha; subst ha; left; rfl
    · simp at ha; subst ha; left; rfl

theorem launchAndReconcile_stop (cfg : Config) (o : Oracle) (sel : Details) (cid : Nat)
    (h : Action.stopContainer cid ∈ (launchAndReconcile cfg o sel).1) :
    (∃ t, o.launchOutcome = some (cid, t)) ∧
      (launchAndReconcile cfg o sel).2 = AttemptResult.restart := by
  unfold launchAndReconcile at h ⊢
  split at h
  · simp at h
  · next cid2 created heq =>
    split at h
    · next hgt =>
      split at h
      · next hin =>
        simp at h
        subst h
        simp only [heq]
        rw [if_pos hgt, if_pos hin]
        exact ⟨⟨created, rfl⟩, rfl⟩
      · simp at h
    · simp at h

theorem launchAndReconcile_placed (cfg : Config) (o : Oracle) (sel : Details)
    (c : Container) (hid : Nat)
    (h : (launchAndReconcile cfg o sel).2 = AttemptResult.placed c hid) :
    c.labels = [cfg.label] := by
  unfold launchAndReconcile at h
  split at h
  · simp at h
  · split at h
    · split at h
      · simp at h
      · simp at h; rw [← h.1]
    · simp at h; rw [← h.1]

theorem launchAndReconcile_launchFail (cfg : Config) (o : Oracle) (sel : Details)
    (h : o.launchOutcome = none) :
    (launchAndReconcile cfg o sel).2 = AttemptResult.restart := by
  unfold launchAndReconcile
  simp only [h]



theorem foldl_min_le_init (xs : List Nat) : ∀ a : Nat, xs.foldl min a ≤ a := by
  induction xs with
  | nil => intro a; exact le_refl a
  | cons x xs ih => intro a; exact le_trans (ih (min a x)) (min_le_left a x)

theorem foldl_min_le_mem (xs : List Nat) : ∀ a x : Nat, x ∈ xs → xs.foldl min a ≤ x := by
  induction xs with
  | nil => intro a x hx; cases hx
  | cons y ys ih =>
    intro a x hx
    rcases List.mem_cons.mp hx with rfl | hx2
    · exact le_trans (foldl_min_le_init ys (min a x)) (min_le_right a x)
    · exact ih (min a y) x hx2

theorem foldl_min_choice (xs : List Nat) : ∀ a, xs.foldl min a = a ∨ xs.foldl min a ∈ xs := by
  induction xs with
  | nil => intro a; left; rfl
  | cons y ys ih =>
    intro a
    rcases ih (min a y) with h | h
    · rcases min_choice a y with h2 | h2
      · left; rw [List.foldl_cons, h, h2]
      · right; rw [List.foldl_cons, h, h2]; exact List.mem_cons_self y ys
    · right; exact List.mem_cons_of_mem y h

theorem pyMin_le (l : List Nat) (x : Nat) (hx : x ∈ l) : pyMin l ≤ x := by
  cases l with
  | nil => cases hx
  | cons y ys =>
    rcases List.mem_cons.mp hx with rfl | h
    · exact foldl_min_le_init ys x
    · exact foldl_min_le_mem ys y x h

theorem pyMin_mem (l : List Nat) (h : l ≠ []) : pyMin l ∈ l := by
  cases l with
  | nil => exact absurd rfl h
  | cons y ys =>
    rcases foldl_min_choice ys y with h2 | h2
    · have he : pyMin (y :: ys) = ys.foldl min y := rfl
      rw [he, h2]; exact List.mem_cons_self y ys
    · have he : pyMin (y :: ys) = ys.foldl min y := rfl
      rw [he]; exact List.mem_cons_of_mem y h2

theorem pick_mem (l : List α) (i : Nat) (h : l ≠ []) :
    ∃ x, pick l i = some x ∧ x ∈ l := by
  have hl : 0 < l.length := List.length_pos.mpr h
  have hmod : i % l.length < l.length := Nat.mod_lt i hl
  refine ⟨l[i % l.length], ?_, List.getElem_mem hmod⟩
  unfold pick
  rw [List.getElem?_eq_getElem hmod]

theorem pick_reaches (l : List α) (x : α) (hx : x ∈ l) :
    ∃ i, pick l i = some x := by
  obtain ⟨i, hi, rfl⟩ := List.getElem_of_mem hx
  refine ⟨i, ?_⟩
  unfold pick
  rw [Nat.mod_eq_of_lt hi, List.getElem?_eq_getElem hi]

theorem candidatesOf_sub (running : List Details) :
    ∀ d ∈ candidatesOf running, d ∈ running := by
  intro d hd
  exact (List.mem_filter.mp hd).1

theorem candidatesOf_min (running : List Details) :
    ∀ c ∈ candidatesOf running, ∀ d ∈ running, c.containers ≤ d.containers := by
  intro c hc d hd
  have h1 : c.containers = pyMin (running.map (fun d => d.containers)) := by
    have := (List.mem_filter.mp hc).2
    simpa using this
  rw [h1]
  exact pyMin_le _ _ (List.mem_map.mpr ⟨d, hd, rfl⟩)

theorem candidatesOf_complete (running : List Details) (hne : running ≠ []) :
    ∀ d ∈ running, (∀ e ∈ running, d.containers ≤ e.containers) → d ∈ candidatesOf running := by
  intro d hd hmin
  have hmap : running.map (fun d => d.containers) ≠ [] := by
    intro hc; exact hne (List.map_eq_nil_iff.mp hc)
  have hmem := pyMin_mem _ hmap
  rcases List.mem_map.mp hmem with ⟨d0, hd0, hdc⟩
  have h1 : d.containers ≤ pyMin (running.map (fun d => d.containers)) := by
    rw [← hdc]; exact hmin d0 hd0
  have h2 : pyMin (running.map (fun d => d.containers)) ≤ d.containers :=
    pyMin_le _ _ (List.mem_map.mpr ⟨d, hd, rfl⟩)
  unfold candidatesOf
  refine List.mem_filter.mpr ⟨hd, ?_⟩
  have : d.containers = pyMin (running.map (fun d => d.containers)) := le_antisymm h1 h2
  rw [this]
  exact beq_self_eq_true _

theorem candidatesOf_ne_nil (running : List Details) (h : running ≠ []) :
    candidatesOf running ≠ [] := by
  have hmap : running.map (fun d => d.containers) ≠ [] := by
    intro hc; exact h (List.map_eq_nil_iff.mp hc)
  rcases List.mem_map.mp (pyMin_mem _ hmap) with ⟨d, hd, hdc⟩
  intro hc
  have hmem : d ∈ candidatesOf running := by
    unfold candidatesOf
    refine List.mem_filter.mpr ⟨hd, ?_⟩
    rw [hdc]
    exact beq_self_eq_true _
  rw [hc] at hmem
  cases hmem

theorem selectionPhase_running (cfg : Config) (key : Option String) (o : Oracle)
    (instances : List Details) (h : instances.filter hasCapacity ≠ []) :
    ∃ sel, sel ∈ candidatesOf (instances.filter hasCapacity) ∧
      selectionPhase cfg key o instances = launchAndReconcile cfg o sel := by
  unfold selectionPhase
  rw [if_pos (List.length_pos.mpr h)]
  obtain ⟨x, hx, hxm⟩ := pick_mem _ o.choiceIdx (candidatesOf_ne_nil _ h)
  exact ⟨x, hxm, by rw [hx]⟩



theorem startStoppedBranch_stop (cfg : Config) (key : Option String) (o : Oracle)
    (sel : Details) (cid : Nat) (tr : List Action) (res : AttemptResult)
    (he : startStoppedBranch cfg key o sel = (tr, res))
    (h : Action.stopContainer cid ∈ tr) :
    (∃ t, o.launchOutcome = some (cid, t)) ∧ res = AttemptResult.restart := by
  unfold startStoppedBranch at he
  split at he
  · cases he
    simp only [List.mem_cons] at h
    rcases h with h | h | h
    · cases h
    · cases h
    · rcases getInstanceDetails_trace cfg key o.probe2 sel.inst _ h with ⟨d, hd⟩
      cases hd
  · split at he
    · cases he
      simp only [List.mem_cons] at h
      rcases h with h | h | h
      · cases h
      · cases h
      · rcases getInstanceDetails_trace cfg key o.probe2 sel.inst _ h with ⟨d, hd⟩
        cases hd
    · cases he
      simp only [List.mem_cons, List.mem_append] at h
      rcases h with h | h | h | h
      · cases h
      · cases h
      · rcases getInstanceDetails_trace cfg key o.probe2 sel.inst _ h with ⟨d, hd⟩
        cases hd
      · exact launchAndReconcile_stop cfg o _ cid h

theorem startStoppedBranch_placed2 (cfg : Config) (key : Option String) (o : Oracle)
    (sel : Details) (c : Container) (hid : Nat)
    (he : (startStoppedBranch cfg key o sel).2 = AttemptResult.placed c hid) :
    c.labels = [cfg.label] := by
  unfold startStoppedBranch at he
  split at he
  · cases he
  · next d heq =>
    split at he
    · cases he
    · exact launchAndReconcile_placed cfg o d c hid he

theorem selectionPhase_stop (cfg : Config) (key : Option String) (o : Oracle)
    (instances : List Details) (cid : Nat) (tr : List Action) (res : AttemptResult)
    (he : selectionPhase cfg key o instances = (tr, res))
    (h : Action.stopContainer cid ∈ tr) :
    (∃ t, o.launchOutcome = some (cid, t)) ∧ res = AttemptResult.restart := by
  unfold selectionPhase at he
  split at he
  · split at he
    · cases he; simp at h
    · next selected heq2 =>
      have h2 : Action.stopContainer cid ∈ (launchAndReconcile cfg o selected).1 := by
        rw [he]; exact h
      have h3 := launchAndReconcile_stop cfg o selected cid h2
      rw [he] at h3
      exact h3
  · split at he
    · split at he
      · cases he; simp at h
      · exact startStoppedBranch_stop cfg key o _ cid tr res he h
    · cases he
      simp only [List.mem_cons] at h
      rcases h with h | h
      · cases h
      · cases h

theorem selectionPhase_placed (cfg : Config) (key : Option String) (o : Oracle)
    (instances : List Details) (c : Container) (hid : Nat)
    (he : (selectionPhase cfg key o instances).2 = AttemptResult.placed c hid) :
    c.labels = [cfg.label] := by
  unfold selectionPhase at he
  split at he
  · split at he
    · cases he
    · next selected heq2 =>
      exact launchAndReconcile_placed cfg o selected c hid he
  · split at he
    · split at he
      · cases he
      · next selected heq2 =>
        exact startStoppedBranch_placed2 cfg key o selected c hid he
    · cases he

theorem spawnAttempt_stop (cfg : Config) (key : Option String) (o : Oracle)
    (poolResult : Except PyErr (List Inst)) (cid : Nat)
    (h : Action.stopContainer cid ∈ (spawnAttempt cfg key o poolResult).1) :
    (∃ t, o.launchOutcome = some (cid, t)) ∧
      (spawnAttempt cfg key o poolResult).2 = AttemptResult.restart := by
  cases poolResult with
  | error e =>
    unfold spawnAttempt at h
    simp at h
  | ok pool =>
    unfold spawnAttempt at h ⊢
    rcases he2 : (enumerateDetails cfg key o.probe1 pool).2 with e | instances <;>
      simp only [he2] at h ⊢
    · rcases enumerateDetails_trace cfg key o.probe1 pool _ h with ⟨d, hd⟩
      cases hd
    · simp only [List.mem_append] at h
      rcases h with h | h
      · rcases enumerateDetails_trace cfg key o.probe1 pool _ h with ⟨d, hd⟩
        cases hd
      · exact selectionPhase_stop cfg key o instances cid _ _ rfl h

theorem spawnAttempt_placed (cfg : Config) (key : Option String) (o : Oracle)
    (poolResult : Except PyErr (List Inst)) (c : Container) (hid : Nat)
    (h : (spawnAttempt cfg key o poolResult).2 = AttemptResult.placed c hid) :
    c.labels = [cfg.label] := by
  cases poolResult with
  | error e =>
    unfold spawnAttempt at h
    cases h
  | ok pool =>
    unfold spawnAttempt at h
    rcases he2 : (enumerateDetails cfg key o.probe1 pool).2 with e | instances <;>
      simp only [he2] at h
    · cases h
    · exact selectionPhase_placed cfg key o instances c hid h



theorem tenacityCount_le (attempt : Nat → AttemptResult) :
    ∀ fuel k, tenacityCount attempt fuel k ≤ fuel := by
  intro fuel
  induction fuel with
  | zero => intro k; exact le_refl 0
  | succ n ih =>
    intro k
    unfold tenacityCount
    split
    · have := ih (k + 1)
      omega
    · omega

theorem tenacityGo_succ_restart (attempt : Nat → AttemptResult) (f k : Nat)
    (h : attempt k = AttemptResult.restart) :
    tenacityGo attempt (f + 1) k = tenacityGo attempt f (k + 1) := by
  have e : tenacityGo attempt (f + 1) k =
      match attempt k with
      | AttemptResult.placed c hid => PlaceResult.ok c hid
      | AttemptResult.failed er => PlaceResult.raised er
      | AttemptResult.restart => tenacityGo attempt f (k + 1) := rfl
  rw [e, h]

theorem tenacityCount_succ_restart (attempt : Nat → AttemptResult) (f k : Nat)
    (h : attempt k = AttemptResult.restart) :
    tenacityCount attempt (f + 1) k = 1 + tenacityCount attempt f (k + 1) := by
  have e : tenacityCount attempt (f + 1) k =
      match attempt k with
      | AttemptResult.restart => 1 + tenacityCount attempt f (k + 1)
      | _ => 1 := rfl
  rw [e, h]

theorem tenacityGo_skip (attempt : Nat → AttemptResult) (m : Nat) :
    ∀ fuel k, m ≤ fuel →
      (∀ j, k ≤ j → j < k + m → attempt j = AttemptResult.restart) →
      tenacityGo attempt fuel k = tenacityGo attempt (fuel - m) (k + m) ∧
      tenacityCount attempt fuel k = m + tenacityCount attempt (fuel - m) (k + m) := by
  induction m with
  | zero => intro fuel k _ _; simp
  | succ n ih =>
    intro fuel k hm hres
    cases fuel with
    | zero => omega
    | succ f =>
      have h1 : attempt k = AttemptResult.restart := hres k (le_refl k) (by omega)
      have ihr := ih f (k + 1) (by omega) (fun j hj hj2 => hres j (by omega) (by omega))
      have e1 : f + 1 - (n + 1) = f - n := by omega
      have e2 : k + (n + 1) = (k + 1) + n := by omega
      constructor
      · show tenacityGo attempt (f + 1) k = tenacityGo attempt (f + 1 - (n + 1)) (k + (n + 1))
        rw [e1, e2, tenacityGo_succ_restart attempt f k h1]
        exact ihr.1
      · show tenacityCount attempt (f + 1) k = (n + 1) + tenacityCount attempt (f + 1 - (n + 1)) (k + (n + 1))
        rw [e1, e2, tenacityCount_succ_restart attempt f k h1, ihr.2]
        omega

theorem tenacityGo_exhaust (attempt : Nat → AttemptResult) (fuel k : Nat)
    (h : ∀ j, k ≤ j → j < k + fuel → attempt j = AttemptResult.restart) :
    tenacityGo attempt fuel k = PlaceResult.fatalRetryError ∧
    tenacityCount attempt fuel k = fuel := by
  have hs := tenacityGo_skip attempt fuel fuel k (le_refl fuel) h
  have e1 : fuel - fuel = 0 := by omega
  rw [e1] at hs
  refine ⟨?_, ?_⟩
  · rw [hs.1]; rfl
  · rw [hs.2]; rfl



/-- Claim C1: during reconciliation, when the just-used host's owned-workload
count exceeds its effective (overridden) capacity, the surplus set should be
the most recently created `occupancy - capacity` owned workloads, sized by the
host's effective capacity.  The code instead slices with the spawner's DEFAULT
`max_containers` and an extra `-1`: with effective capacity 3 (tag override),
default 1 and four owned workloads created at times 1..4, the code's surplus is
`[3, 4]` while the claim demands `[4]`. -/
theorem claim_C1_surplus_slice :
    detectCapacity defaultCfg (some "cap") overrideInst = Except.ok 3 ∧
    ((fourContainers.length : Int) > 3) ∧
    surplusOf defaultCfg fourContainers = [3, 4] ∧
    claimedSurplus 3 fourContainers = [4] ∧
    surplusOf defaultCfg fourContainers ≠ claimedSurplus 3 fourContainers :=
  ⟨rfl, by decide, by decide, by decide, by decide⟩

/-- Claim C2: with capacity `C = 1` and two racing launches (creation times 1
and 2), reconciliation should stop exactly the latest-created workload and
leave `C` running.  Evaluating the engine that launched the EARLIER container
(id 10, created at time 1): its surplus slice `created[(2 - 1) - 1:] = [1, 2]`
contains every creation time, so it stops its own, earlier container as well —
by symmetry both racing engines self-evict, leaving `C - 1` running. -/
theorem claim_C2_race_eviction :
    spawnAttempt defaultCfg none raceOracle (Except.ok [runningInst]) =
      ([Action.launchContainer 1, Action.stopContainer 10], AttemptResult.restart) ∧
    raceOracle.launchOutcome = some (10, 1) ∧
    raceOracle.reconList.map (fun c => c.created) = [1, 2] ∧
    surplusOf defaultCfg (runningContainers defaultCfg.label raceOracle.reconList) = [1, 2] :=
  ⟨by decide, rfl, by decide, by decide⟩

/-- Claim C8: every host snapshot built by `_get_instance_details` satisfies
invariant I2 — a snapshot with `isRunning = false` has `runtimeReachable =
false` (no Docker client) and `currentOccupancy = 0`. -/
theorem claim_C8_stopped_snapshot (cfg : Config) (key : Option String)
    (probe : Nat → ProbeOutcome) (inst : Inst) (tr : List Action) (d : Details)
    (h : getInstanceDetails cfg key probe inst = (tr, Except.ok d))
    (hns : d.running = false) :
    d.docker = false ∧ d.containers = 0 := by
  unfold getInstanceDetails at h
  split at h
  · cases h
  · split at h
    · split at h <;> (cases h; cases hns)
    · cases h; exact ⟨rfl, rfl⟩

/-- Witness for C8 at a stopped instance. -/
theorem claim_C8_stopped_snapshot_witness :
    ({ inst := ⟨2, "stopped", [], 0⟩, capacity := 1, running := false,
       docker := false, containers := 0 } : Details).docker = false ∧
    ({ inst := ⟨2, "stopped", [], 0⟩, capacity := 1, running := false,
       docker := false, containers := 0 } : Details).containers = 0 :=
  claim_C8_stopped_snapshot defaultCfg none (fun _ => ProbeOutcome.unreachable)
    ⟨2, "stopped", [], 0⟩ [] _ rfl rfl

/-- Claim C10: the only workload an attempt ever stops is the one this attempt
just launched, and a stop is always followed by a transient failure. -/
theorem claim_C10_stop_frame (cfg : Config) (key : Option String) (o : Oracle)
    (poolResult : Except PyErr (List Inst)) (cid : Nat)
    (h : Action.stopContainer cid ∈ (spawnAttempt cfg key o poolResult).1) :
    (∃ t, o.launchOutcome = some (cid, t)) ∧
      (spawnAttempt cfg key o poolResult).2 = AttemptResult.restart :=
  spawnAttempt_stop cfg key o poolResult cid h

/-- Witness for C10 in the second racing scenario. -/
theorem claim_C10_stop_frame_witness :
    (∃ t, frameOracle.launchOutcome = some (77, t)) ∧
      (spawnAttempt defaultCfg none frameOracle
          (Except.ok [⟨2, "running", [], 50⟩])).2 = AttemptResult.restart :=
  claim_C10_stop_frame defaultCfg none frameOracle
    (Except.ok [⟨2, "running", [], 50⟩]) 77 (by decide)

/-- Claim C5 counterexample: an error while reading a host's capacity-override
metadata (a non-integer tag value) is NOT converted to the transient-failure
signal — the attempt ends with the propagated `ValueError`, not with
`HostSelectionRestart`. -/
theorem claim_C5_counterexample :
    (spawnAttempt defaultCfg (some "cap") quietOracle (Except.ok [badTagInst])).2 =
        AttemptResult.failed (PyErr.valueError "banana") ∧
      (spawnAttempt defaultCfg (some "cap") quietOracle (Except.ok [badTagInst])).2 ≠
        AttemptResult.restart := by
  constructor
  · decide
  · decide

/-- Claim C5 amended: only workload-launch failures are converted to the
transient signal (per-host probe failures being swallowed separately); errors
from pool enumeration and from parsing a capacity-override tag propagate
immediately to the caller. -/
theorem claim_C5_amended_propagation (cfg : Config) (key : Option String) (o : Oracle) :
    (∀ e, spawnAttempt cfg key o (Except.error e) = ([], AttemptResult.failed e)) ∧
    (∀ inst rest e, detectCapacity cfg key inst = Except.error e →
      spawnAttempt cfg key o (Except.ok (inst :: rest)) = ([], AttemptResult.failed e)) ∧
    (∀ sel, o.launchOutcome = none →
      (launchAndReconcile cfg o sel).2 = AttemptResult.restart) := by
  refine ⟨fun e => rfl, ?_, fun sel h => launchAndReconcile_launchFail cfg o sel h⟩
  intro inst rest e hc
  have hg : getInstanceDetails cfg key o.probe1 inst = ([], Except.error e) := by
    unfold getInstanceDetails
    rw [hc]
  have hen : enumerateDetails cfg key o.probe1 (inst :: rest) = ([], Except.error e) := by
    unfold enumerateDetails
    simp only [hg]
  unfold spawnAttempt
  simp only [hen]

/-- Witness for the amended C5 at a concrete non-numeric tag. -/
theorem claim_C5_amended_propagation_witness :
    spawnAttempt defaultCfg (some "cap") quietOracle (Except.ok [badTagInst2]) =
      ([], AttemptResult.failed (PyErr.valueError "x")) :=
  (claim_C5_amended_propagation defaultCfg (some "cap") quietOracle).2.1
    badTagInst2 [] (PyErr.valueError "x") rfl



/-- Claim C7: a failure to reach a single host's runtime during enumeration is
swallowed — the snapshot gets no Docker client and occupancy 0, the host fails
the `_has_capacity` test, and enumeration (hence the attempt) does not fail on
account of that host: it returns a details list whenever every capacity tag
parses. -/
theorem claim_C7_probe_swallowed (cfg : Config) (key : Option String)
    (probe : Nat → ProbeOutcome) (inst : Inst) (cap : Int)
    (hrun : inst.stateName = "running")
    (hprobe : probe inst.iid = ProbeOutcome.unreachable)
    (hcap : detectCapacity cfg key inst = Except.ok cap) :
    (getInstanceDetails cfg key probe inst =
      (bootTrace cfg inst,
       Except.ok { inst := inst, capacity := cap, running := true,
                   docker := false, containers := 0 })) ∧
    hasCapacity { inst := inst, capacity := cap, running := true,
                  docker := false, containers := 0 } = false ∧
    ∀ pool : List Inst,
      (∀ i ∈ pool, ∃ c, detectCapacity cfg key i = Except.ok c) →
      ∃ tr ds, enumerateDetails cfg key probe pool = (tr, Except.ok ds) := by
  refine ⟨?_, ?_, ?_⟩
  · unfold getInstanceDetails
    simp only [hcap]
    rw [if_pos hrun, hprobe]
  · simp [hasCapacity]
  · intro pool
    induction pool with
    | nil => intro _; exact ⟨[], [], rfl⟩
    | cons i rest ih =>
      intro hp
      obtain ⟨c, hc⟩ := hp i (List.mem_cons_self i rest)
      obtain ⟨tr1, d1, hd1⟩ := getInstanceDetails_ok cfg key probe i c hc
      obtain ⟨tr2, ds2, hd2⟩ := ih (fun j hj => hp j (List.mem_cons_of_mem i hj))
      refine ⟨tr1 ++ tr2, d1 :: ds2, ?_⟩
      unfold enumerateDetails
      simp only [hd1, hd2]

/-- Witness for C7 at an unreachable running host. -/
theorem claim_C7_probe_swallowed_witness :
    getInstanceDetails defaultCfg none (fun _ => ProbeOutcome.unreachable) runningInst =
      ([], Except.ok { inst := runningInst, capacity := 1, running := true,
                       docker := false, containers := 0 }) :=
  (claim_C7_probe_swallowed defaultCfg none (fun _ => ProbeOutcome.unreachable)
    runningInst 1 rfl rfl rfl).1

/-- Claim C6: the ownership label is a single shared identifier — every
workload the engine places carries the engine's label, a workload counts
toward `_running_containers` exactly when it carries the label, and a
snapshot's occupancy is the length of the label-filtered container list. -/
theorem claim_C6_label_shared (cfg : Config) :
    (∀ key o poolResult c hid,
        (spawnAttempt cfg key o poolResult).2 = AttemptResult.placed c hid →
        c.labels = [cfg.label]) ∧
    (∀ cs c, c ∈ runningContainers cfg.label cs ↔ c ∈ cs ∧ cfg.label ∈ c.labels) ∧
    (∀ key probe inst tr d cs,
        probe inst.iid = ProbeOutcome.ok cs →
        getInstanceDetails cfg key probe inst = (tr, Except.ok d) →
        d.running = true →
        d.containers = (runningContainers cfg.label cs).length) := by
  refine ⟨?_, ?_, ?_⟩
  · intro key o pr c hid h
    exact spawnAttempt_placed cfg key o pr c hid h
  · intro cs c
    simp [runningContainers, List.mem_filter]
  · intro key probe inst tr d cs hcs h hrun
    unfold getInstanceDetails at h
    split at h
    · cases h
    · split at h
      · rw [hcs] at h
        cases h
        rfl
      · cases h
        cases hrun

/-- Witness for C6: the engine counts one of the two containers on a host
where only one carries the label. -/
theorem claim_C6_label_shared_witness :
    ({ inst := runningInst, capacity := 1, running := true, docker := true,
       containers := 1 } : Details).containers =
      (runningContainers "ci" [⟨5, 9, ["ci"]⟩, ⟨6, 9, ["sys"]⟩]).length :=
  (claim_C6_label_shared defaultCfg).2.2 none
    (fun _ => ProbeOutcome.ok [⟨5, 9, ["ci"]⟩, ⟨6, 9, ["sys"]⟩])
    runningInst [] _ [⟨5, 9, ["ci"]⟩, ⟨6, 9, ["sys"]⟩] rfl rfl rfl



theorem tenacityGo_succ_failed (attempt : Nat → AttemptResult) (f k : Nat) (e : PyErr)
    (h : attempt k = AttemptResult.failed e) :
    tenacityGo attempt (f + 1) k = PlaceResult.raised e := by
  have he : tenacityGo attempt (f + 1) k =
      match attempt k with
      | AttemptResult.placed c hid => PlaceResult.ok c hid
      | AttemptResult.failed er => PlaceResult.raised er
      | AttemptResult.restart => tenacityGo attempt f (k + 1) := rfl
  rw [he, h]

theorem tenacityGo_succ_placed (attempt : Nat → AttemptResult) (f k : Nat)
    (c : Container) (hid : Nat) (h : attempt k = AttemptResult.placed c hid) :
    tenacityGo attempt (f + 1) k = PlaceResult.ok c hid := by
  have he : tenacityGo attempt (f + 1) k =
      match attempt k with
      | AttemptResult.placed c hid => PlaceResult.ok c hid
      | AttemptResult.failed er => PlaceResult.raised er
      | AttemptResult.restart => tenacityGo attempt f (k + 1) := rfl
  rw [he, h]

theorem tenacityCount_succ_failed (attempt : Nat → AttemptResult) (f k : Nat) (e : PyErr)
    (h : attempt k = AttemptResult.failed e) :
    tenacityCount attempt (f + 1) k = 1 := by
  have he : tenacityCount attempt (f + 1) k =
      match attempt k with
      | AttemptResult.restart => 1 + tenacityCount attempt f (k + 1)
      | _ => 1 := rfl
  rw [he, h]

theorem tenacityCount_succ_placed (attempt : Nat → AttemptResult) (f k : Nat)
    (c : Container) (hid : Nat) (h : attempt k = AttemptResult.placed c hid) :
    tenacityCount attempt (f + 1) k = 1 := by
  have he : tenacityCount attempt (f + 1) k =
      match attempt k with
      | AttemptResult.restart => 1 + tenacityCount attempt f (k + 1)
      | _ => 1 := rfl
  rw [he, h]

/-- Claim C4: the tenacity wrapper retries exactly on the transient signal,
performs at most 5 attempts, ends the call at the first attempt that does not
raise the signal (propagating an error, or returning the placed container),
and after 5 transient failures surfaces `tenacity.RetryError` instead of
retrying again. -/
theorem claim_C4_retry_wrapper (attempt : Nat → AttemptResult) :
    attemptsMade attempt ≤ 5 ∧
    (∀ k, k ≤ 4 → (∀ j, 1 ≤ j → j ≤ k → attempt j = AttemptResult.restart) →
      (∀ e, attempt (k + 1) = AttemptResult.failed e →
        runWithRetry attempt = PlaceResult.raised e ∧ attemptsMade attempt = k + 1) ∧
      (∀ c hid, attempt (k + 1) = AttemptResult.placed c hid →
        runWithRetry attempt = PlaceResult.ok c hid ∧ attemptsMade attempt = k + 1)) ∧
    ((∀ j, 1 ≤ j → j ≤ 5 → attempt j = AttemptResult.restart) →
      runWithRetry attempt = PlaceResult.fatalRetryError ∧ attemptsMade attempt = 5) := by
  refine ⟨tenacityCount_le attempt 5 1, ?_, ?_⟩
  · intro k hk hres
    have hskip := tenacityGo_skip attempt k 5 1 (by omega)
      (fun j hj hj2 => hres j hj (by omega))
    have e5 : 5 - k = (4 - k) + 1 := by omega
    have e6 : 1 + k = k + 1 := by omega
    rw [e5, e6] at hskip
    constructor
    · intro e hf
      constructor
      · unfold runWithRetry
        rw [hskip.1, tenacityGo_succ_failed attempt (4 - k) (k + 1) e hf]
      · unfold attemptsMade
        rw [hskip.2, tenacityCount_succ_failed attempt (4 - k) (k + 1) e hf]
    · intro c hid hp
      constructor
      · unfold runWithRetry
        rw [hskip.1, tenacityGo_succ_placed attempt (4 - k) (k + 1) c hid hp]
      · unfold attemptsMade
        rw [hskip.2, tenacityCount_succ_placed attempt (4 - k) (k + 1) c hid hp]
  · intro hres
    have h := tenacityGo_exhaust attempt 5 1 (fun j hj hj2 => hres j hj (by omega))
    unfold runWithRetry attemptsMade
    exact h

/-- Witness for C4: five transient failures exhaust the budget. -/
theorem claim_C4_retry_wrapper_witness :
    runWithRetry (fun _ => AttemptResult.restart) = PlaceResult.fatalRetryError ∧
      attemptsMade (fun _ => AttemptResult.restart) = 5 :=
  (claim_C4_retry_wrapper (fun _ => AttemptResult.restart)).2.2 (fun _ _ _ => rfl)



/-- Claim C3: whenever the running-with-capacity set is non-empty, the attempt
selects a candidate with minimal observed occupancy; the candidate set is
exactly the tied minimum set (no tied host is excluded — every one is reachable
by some random draw); and the attempt neither starts a host nor takes the
backdown timer. -/
theorem claim_C3_min_occupancy_selection (cfg : Config) (key : Option String)
    (o : Oracle) (pool : List Inst) (tr0 : List Action) (instances : List Details)
    (he : enumerateDetails cfg key o.probe1 pool = (tr0, Except.ok instances))
    (hne : instances.filter hasCapacity ≠ []) :
    (∀ c ∈ candidatesOf (instances.filter hasCapacity),
        ∀ d ∈ instances.filter hasCapacity, c.containers ≤ d.containers) ∧
    (∀ d ∈ instances.filter hasCapacity,
        (∀ e ∈ instances.filter hasCapacity, d.containers ≤ e.containers) →
        d ∈ candidatesOf (instances.filter hasCapacity)) ∧
    (∀ d ∈ candidatesOf (instances.filter hasCapacity),
        ∃ i, pick (candidatesOf (instances.filter hasCapacity)) i = some d) ∧
    (∃ sel, sel ∈ candidatesOf (instances.filter hasCapacity) ∧
        spawnAttempt cfg key o (Except.ok pool) =
          (tr0 ++ (launchAndReconcile cfg o sel).1, (launchAndReconcile cfg o sel).2)) ∧
    (∀ a ∈ (spawnAttempt cfg key o (Except.ok pool)).1,
        isStart a = false ∧ isBackdown a = false) := by
  obtain ⟨sel, hselmem, hsel⟩ := selectionPhase_running cfg key o instances hne
  have hspawn : spawnAttempt cfg key o (Except.ok pool) =
      (tr0 ++ (launchAndReconcile cfg o sel).1, (launchAndReconcile cfg o sel).2) := by
    unfold spawnAttempt
    simp only [he]
    rw [hsel]
  refine ⟨candidatesOf_min _, candidatesOf_complete _ hne,
          fun d hd => pick_reaches _ d hd, ⟨sel, hselmem, hspawn⟩, ?_⟩
  intro a ha
  rw [hspawn] at ha
  simp only [List.mem_append] at ha
  rcases ha with ha | ha
  · have h2 : a ∈ (enumerateDetails cfg key o.probe1 pool).1 := by rw [he]; exact ha
    rcases enumerateDetails_trace cfg key o.probe1 pool a h2 with ⟨d, rfl⟩
    exact ⟨rfl, rfl⟩
  · rcases launchAndReconcile_kinds cfg o sel a ha with h2 | h2 <;>
      cases a <;> simp_all [isLaunch, isStop, isStart, isBackdown]

/-- Witness for C3 on a single-host pool with spare capacity. -/
theorem claim_C3_min_occupancy_selection_witness :
    isStart (Action.launchContainer 1) = false ∧
      isBackdown (Action.launchContainer 1) = false :=
  (claim_C3_min_occupancy_selection defaultCfg none quietOracle [runningInst] []
      [{ inst := runningInst, capacity := 1, running := true, docker := true,
         containers := 0 }] rfl (by decide)).2.2.2.2
    (Action.launchContainer 1) (by decide)

/-- Claim C9: with no running host with capacity and no stopped host, the
attempt appends exactly one backdown sleep whose duration models
`random.uniform(60, 180)` — lying in `[60, 180)` for every draw in `[0, 1)` —
then fails transiently; it launches no container, starts no instance and stops
nothing. -/
theorem claim_C9_backdown_branch (cfg : Config) (key : Option String) (o : Oracle)
    (pool : List Inst) (tr0 : List Action) (instances : List Details)
    (he : enumerateDetails cfg key o.probe1 pool = (tr0, Except.ok instances))
    (hrun : instances.filter hasCapacity = [])
    (hstop : instances.filter (fun d => d.running == false) = [])
    (hr0 : 0 ≤ o.backoffR) (hr1 : o.backoffR < 1) :
    spawnAttempt cfg key o (Except.ok pool) =
      (tr0 ++ [Action.backdown (uniform 60 180 o.backoffR)], AttemptResult.restart) ∧
    60 ≤ uniform 60 180 o.backoffR ∧ uniform 60 180 o.backoffR < 180 ∧
    ∀ a ∈ (spawnAttempt cfg key o (Except.ok pool)).1,
      isStart a = false ∧ isLaunch a = false ∧ isStop a = false := by
  have hphase : selectionPhase cfg key o instances =
      ([Action.backdown (uniform 60 180 o.backoffR)], AttemptResult.restart) := by
    unfold selectionPhase
    rw [hrun, hstop]
    simp
  have hspawn : spawnAttempt cfg key o (Except.ok pool) =
      (tr0 ++ [Action.backdown (uniform 60 180 o.backoffR)], AttemptResult.restart) := by
    unfold spawnAttempt
    simp only [he]
    rw [hphase]
  refine ⟨hspawn, ?_, ?_, ?_⟩
  · unfold uniform
    nlinarith [hr0, hr1]
  · unfold uniform
    nlinarith [hr0, hr1]
  · intro a ha
    rw [hspawn] at ha
    simp only [List.mem_append, List.mem_singleton] at ha
    rcases ha with ha | rfl
    · have h2 : a ∈ (enumerateDetails cfg key o.probe1 pool).1 := by rw [he]; exact ha
      rcases enumerateDetails_trace cfg key o.probe1 pool a h2 with ⟨d, rfl⟩
      exact ⟨rfl, rfl, rfl⟩
    · exact ⟨rfl, rfl, rfl⟩

/-- Witness for C9 on an empty pool with a draw of one half. -/
theorem claim_C9_backdown_branch_witness :
    spawnAttempt defaultCfg none backoffOracle (Except.ok []) =
      ([] ++ [Action.backdown (uniform 60 180 (1/2))], AttemptResult.restart) :=
  (claim_C9_backdown_branch defaultCfg none backoffOracle [] [] [] rfl rfl rfl
    (by norm_num [backoffOracle]) (by norm_num [backoffOracle])).1


end ContainerSpawner
